import Mathlib

/-!
Verification development for a small real-time 3D rendering demo
(two demo translation units: a curved-world demo and a flat-world demo).

The procedural mesh generators, the camera state machine and the GPU-object
lifecycle are embedded shallowly:

* float arithmetic of the generators is modelled exactly over the rationals;
* the camera's trigonometric front-vector computation is modelled over the
  real numbers;
* graphics-API side effects are modelled as explicit call traces.
-/

/-- A 3-component vector with exact rational components, modelling glm::vec3
as used by the mesh generators. -/
structure Vec3Q where
  x : ℚ
  y : ℚ
  z : ℚ
deriving DecidableEq, Repr

/-- Componentwise vector addition (glm operator+). -/
def Vec3Q.add (a b : Vec3Q) : Vec3Q :=
  ⟨a.x + b.x, a.y + b.y, a.z + b.z⟩

/-- Vector-scalar multiplication (glm operator* with a scalar). -/
def Vec3Q.smul (a : Vec3Q) (c : ℚ) : Vec3Q :=
  ⟨a.x * c, a.y * c, a.z * c⟩

/-- The glm cross product. -/
def Vec3Q.cross (a b : Vec3Q) : Vec3Q :=
  ⟨a.y * b.z - a.z * b.y, a.z * b.x - a.x * b.z, a.x * b.y - a.y * b.x⟩

namespace Cube

/-- The point-on-face helper closed over by Cube::addFace:
normal * 0.5 + side1 * ((u * step) - 0.5) + side2 * ((v * step) - 0.5). -/
def getPoint (normal side1 side2 : Vec3Q) (step : ℚ) (u v : ℕ) : Vec3Q :=
  ((normal.smul 0.5).add (side1.smul (((u : ℚ) * step) - 0.5))).add
    (side2.smul (((v : ℚ) * step) - 0.5))

/-- Cube::addFace: the flat float data appended for one subdivided cube face
with the given outward normal, at subdivision resolution res. -/
def addFace (normal : Vec3Q) (res : ℕ) : List ℚ :=
  let side1 : Vec3Q := ⟨normal.y, normal.z, normal.x⟩
  let side2 : Vec3Q := Vec3Q.cross normal side1
  let step : ℚ := 1 / (res : ℚ)
  (List.range res).flatMap fun i =>
    (List.range res).flatMap fun j =>
      let p1 := getPoint normal side1 side2 step i j
      let p2 := getPoint normal side1 side2 step (i + 1) j
      let p3 := getPoint normal side1 side2 step i (j + 1)
      let p4 := getPoint normal side1 side2 step (i + 1) (j + 1)
      [p1.x, p1.y, p1.z, p2.x, p2.y, p2.z, p3.x, p3.y, p3.z] ++
      [p2.x, p2.y, p2.z, p4.x, p4.y, p4.z, p3.x, p3.y, p3.z]

/-- The six face normals used by Cube::generateSubdividedCube. -/
def faces : List Vec3Q :=
  [⟨1, 0, 0⟩, ⟨-1, 0, 0⟩, ⟨0, 1, 0⟩, ⟨0, -1, 0⟩, ⟨0, 0, 1⟩, ⟨0, 0, -1⟩]

/-- Cube::generateSubdividedCube: the full flat vertex buffer of the
subdivided cube, all six faces appended in order. -/
def generateSubdividedCube (res : ℕ) : List ℚ :=
  faces.flatMap fun f => addFace f res

end Cube

/-- Length of a flatMap whose inner lists all have the same length. -/
theorem length_flatMap_const {α β : Type} {l : List α} {f : α → List β} {c : ℕ}
    (h : ∀ a ∈ l, (f a).length = c) : (l.flatMap f).length = l.length * c := by
  induction l with
  | nil => simp
  | cons a t ih =>
      have ha := h a (List.mem_cons_self a t)
      have ht := ih fun b hb => h b (List.mem_cons_of_mem a hb)
      simp [List.flatMap_cons, ha, ht, Nat.succ_mul, Nat.add_comm]

/-- Length of a flatMap over List.range with constant inner length. -/
theorem length_flatMap_range_const {β : Type} {n c : ℕ} {f : ℕ → List β}
    (h : ∀ i, i < n → (f i).length = c) :
    ((List.range n).flatMap f).length = n * c := by
  rw [length_flatMap_const fun i hi => h i (List.mem_range.mp hi), List.length_range]

/-- Each subdivided face contributes res * res * 18 floats. -/
theorem Cube.addFace_length (normal : Vec3Q) (res : ℕ) :
    (Cube.addFace normal res).length = res * res * 18 := by
  simp only [Cube.addFace]
  have h := length_flatMap_range_const (n := res) (c := res * 18)
    (f := fun i => (List.range res).flatMap fun j =>
      let p1 := getPoint normal ⟨normal.y, normal.z, normal.x⟩
        (Vec3Q.cross normal ⟨normal.y, normal.z, normal.x⟩) (1 / (res : ℚ)) i j
      let p2 := getPoint normal ⟨normal.y, normal.z, normal.x⟩
        (Vec3Q.cross normal ⟨normal.y, normal.z, normal.x⟩) (1 / (res : ℚ)) (i + 1) j
      let p3 := getPoint normal ⟨normal.y, normal.z, normal.x⟩
        (Vec3Q.cross normal ⟨normal.y, normal.z, normal.x⟩) (1 / (res : ℚ)) i (j + 1)
      let p4 := getPoint normal ⟨normal.y, normal.z, normal.x⟩
        (Vec3Q.cross normal ⟨normal.y, normal.z, normal.x⟩) (1 / (res : ℚ)) (i + 1) (j + 1)
      [p1.x, p1.y, p1.z, p2.x, p2.y, p2.z, p3.x, p3.y, p3.z] ++
      [p2.x, p2.y, p2.z, p4.x, p4.y, p4.z, p3.x, p3.y, p3.z])
    (fun i _ => length_flatMap_range_const fun j _ => rfl)
  rw [h, Nat.mul_assoc]

/-- The whole subdivided cube holds 6 * res^2 * 18 floats. -/
theorem Cube.generate_length (res : ℕ) :
    (Cube.generateSubdividedCube res).length = 6 * res ^ 2 * 18 := by
  simp only [Cube.generateSubdividedCube]
  rw [length_flatMap_const fun f _ => Cube.addFace_length f res]
  simp [Cube.faces]
  ring

/-- All three coordinates of a point lie in the centered unit cube. -/
def inUnitCube (p : Vec3Q) : Prop :=
  (-(1/2 : ℚ) ≤ p.x ∧ p.x ≤ 1/2) ∧ (-(1/2 : ℚ) ≤ p.y ∧ p.y ≤ 1/2) ∧
  (-(1/2 : ℚ) ≤ p.z ∧ p.z ≤ 1/2)

/-- A grid parameter u ≤ res scaled by the step 1/res lies in [0, 1]. -/
theorem unit_step_bound {res u : ℕ} (hres : 1 ≤ res) (hu : u ≤ res) :
    0 ≤ (u : ℚ) * (1 / (res : ℚ)) ∧ (u : ℚ) * (1 / (res : ℚ)) ≤ 1 := by
  have h0 : (0 : ℚ) < (res : ℚ) := by exact_mod_cast hres
  have h1 : (u : ℚ) ≤ (res : ℚ) := by exact_mod_cast hu
  refine ⟨by positivity, ?_⟩
  rw [mul_one_div, div_le_one h0]
  exact h1

/-- Every grid point of every face of the subdivided cube lies in the
centered unit cube. -/
theorem Cube.getPoint_bounds {normal : Vec3Q} (hn : normal ∈ Cube.faces)
    {res u v : ℕ} (hres : 1 ≤ res) (hu : u ≤ res) (hv : v ≤ res) :
    inUnitCube (Cube.getPoint normal ⟨normal.y, normal.z, normal.x⟩
      (Vec3Q.cross normal ⟨normal.y, normal.z, normal.x⟩) (1 / (res : ℚ)) u v) := by
  obtain ⟨hu0, hu1⟩ := unit_step_bound hres hu
  obtain ⟨hv0, hv1⟩ := unit_step_bound hres hv
  simp only [Cube.faces, List.mem_cons, List.not_mem_nil, or_false] at hn
  rcases hn with rfl | rfl | rfl | rfl | rfl | rfl <;>
    simp only [Cube.getPoint, Vec3Q.cross, Vec3Q.add, Vec3Q.smul, inUnitCube] <;>
    refine ⟨⟨?_, ?_⟩, ⟨?_, ?_⟩, ⟨?_, ?_⟩⟩ <;>
    linarith

/-- Every float emitted by the subdivided-cube generator lies in [-1/2, 1/2]. -/
theorem Cube.generate_mem_bounds {res : ℕ} (hres : 1 ≤ res) :
    ∀ a ∈ Cube.generateSubdividedCube res, -(1/2 : ℚ) ≤ a ∧ a ≤ 1/2 := by
  intro a ha
  simp only [Cube.generateSubdividedCube, List.mem_flatMap] at ha
  obtain ⟨f, hf, ha⟩ := ha
  simp only [Cube.addFace, List.mem_flatMap, List.mem_range] at ha
  obtain ⟨i, hi, j, hj, ha⟩ := ha
  have h1 := Cube.getPoint_bounds hf hres (le_of_lt hi) (le_of_lt hj)
  have h2 := Cube.getPoint_bounds hf hres hi (le_of_lt hj)
  have h3 := Cube.getPoint_bounds hf hres (le_of_lt hi) hj
  have h4 := Cube.getPoint_bounds hf hres hi hj
  rcases List.mem_append.mp ha with h | h <;>
    simp only [List.mem_cons, List.not_mem_nil, or_false] at h <;>
    rcases h with rfl | rfl | rfl | rfl | rfl | rfl | rfl | rfl | rfl <;>
    first
      | exact h1.1 | exact h1.2.1 | exact h1.2.2
      | exact h2.1 | exact h2.2.1 | exact h2.2.2
      | exact h3.1 | exact h3.2.1 | exact h3.2.2
      | exact h4.1 | exact h4.2.1 | exact h4.2.2

/-- Claim C1: for every subdivision resolution R at least 1, the
subdivided-cube generator yields exactly 6 * R^2 * 18 floats, hence
6 * R^2 * 6 vertices, and every emitted coordinate lies in [-1/2, 1/2]. -/
theorem cube_generator_correct (R : ℕ) (hR : 1 ≤ R) :
    (Cube.generateSubdividedCube R).length = 6 * R ^ 2 * 18 ∧
    (Cube.generateSubdividedCube R).length / 3 = 6 * R ^ 2 * 6 ∧
    ∀ a ∈ Cube.generateSubdividedCube R, -(1/2 : ℚ) ≤ a ∧ a ≤ 1/2 := by
  refine ⟨Cube.generate_length R, ?_, Cube.generate_mem_bounds hR⟩
  rw [Cube.generate_length R]
  generalize R ^ 2 = k
  omega

/-- Witness for claim C1 at resolution 1. -/
theorem cube_generator_correct_witness :
    1 ≤ 1 ∧
    ((Cube.generateSubdividedCube 1).length = 6 * 1 ^ 2 * 18 ∧
     (Cube.generateSubdividedCube 1).length / 3 = 6 * 1 ^ 2 * 6 ∧
     ∀ a ∈ Cube.generateSubdividedCube 1, -(1/2 : ℚ) ≤ a ∧ a ≤ 1/2) :=
  ⟨le_refl 1, cube_generator_correct 1 (le_refl 1)⟩

namespace Ground

/-- Ground::generateVertices from the curved-world demo: a 500 x 500 grid of
quad cells spanning [-size, size] in x and z at height -1, each cell emitted
as two triangles via six inserts of three floats. -/
def generateVertices (size : ℚ) : List ℚ :=
  let resolution : ℕ := 500
  let step : ℚ := (size * 2) / (resolution : ℚ)
  (List.range resolution).flatMap fun i =>
    (List.range resolution).flatMap fun j =>
      let x : ℚ := -size + (i : ℚ) * step
      let z : ℚ := -size + (j : ℚ) * step
      [x, -1, z] ++ [x + step, -1, z] ++ [x, -1, z + step] ++
      [x + step, -1, z] ++ [x + step, -1, z + step] ++ [x, -1, z + step]

/-- The same vertex stream, grouped into (x, y, z) position triples. -/
def vertexTriples (size : ℚ) : List (ℚ × ℚ × ℚ) :=
  let resolution : ℕ := 500
  let step : ℚ := (size * 2) / (resolution : ℚ)
  (List.range resolution).flatMap fun i =>
    (List.range resolution).flatMap fun j =>
      let x : ℚ := -size + (i : ℚ) * step
      let z : ℚ := -size + (j : ℚ) * step
      [(x, -1, z), (x + step, -1, z), (x, -1, z + step),
       (x + step, -1, z), (x + step, -1, z + step), (x, -1, z + step)]

/-- The flat float buffer is exactly the flattening of the triple view. -/
theorem generateVertices_eq_flatten (size : ℚ) :
    generateVertices size =
      (vertexTriples size).flatMap fun t => [t.1, t.2.1, t.2.2] := by
  simp [generateVertices, vertexTriples, List.flatMap_assoc]

/-- The generated buffer always holds 500 * 500 * 6 * 3 floats. -/
theorem generateVertices_length (size : ℚ) :
    (generateVertices size).length = 500 * 500 * 6 * 3 := by
  simp only [generateVertices]
  refine Eq.trans (length_flatMap_range_const (c := 500 * 18) ?_) (by norm_num)
  intro i _
  dsimp only
  refine Eq.trans (length_flatMap_range_const (c := 18) ?_) (by norm_num)
  intro j _
  rfl

set_option maxHeartbeats 1000000 in
/-- Every triple of the ground grid has y = -1 and x, z within [-S, S]. -/
theorem vertexTriples_bounds {S : ℚ} (hS : 0 ≤ S) :
    ∀ t ∈ vertexTriples S, t.2.1 = -1 ∧
      -S ≤ t.1 ∧ t.1 ≤ S ∧ -S ≤ t.2.2 ∧ t.2.2 ≤ S := by
  intro t ht
  simp only [vertexTriples, List.mem_flatMap, List.mem_range, Nat.cast_ofNat] at ht
  obtain ⟨i, hi, j, hj, ht⟩ := ht
  have hi0 : (0 : ℚ) ≤ (i : ℚ) := Nat.cast_nonneg i
  have hj0 : (0 : ℚ) ≤ (j : ℚ) := Nat.cast_nonneg j
  have hi4 : (i : ℚ) ≤ 499 := by exact_mod_cast Nat.lt_succ_iff.mp hi
  have hj4 : (j : ℚ) ≤ 499 := by exact_mod_cast Nat.lt_succ_iff.mp hj
  have hstep : (0 : ℚ) ≤ S * 2 / 500 := by positivity
  simp only [List.mem_cons, List.not_mem_nil, or_false] at ht
  rcases ht with rfl | rfl | rfl | rfl | rfl | rfl <;>
    refine ⟨rfl, ?_, ?_, ?_, ?_⟩ <;>
    nlinarith [mul_nonneg hi0 hstep, mul_nonneg hj0 hstep,
      mul_nonneg (sub_nonneg.mpr hi4) hstep, mul_nonneg (sub_nonneg.mpr hj4) hstep]

/-- The maximal x value 20 is attained at half-extent 20 (cell i = 499, j = 0,
second vertex of the first triangle). -/
theorem vertexTriples_attains_max :
    ((20 : ℚ), (-1 : ℚ), (-20 : ℚ)) ∈ vertexTriples 20 := by
  simp only [vertexTriples, List.mem_flatMap, List.mem_range, Nat.cast_ofNat]
  refine ⟨499, by norm_num, 0, by norm_num, ?_⟩
  norm_num [List.mem_cons, Prod.mk.injEq]

/-- The minimal x value -20 is attained at half-extent 20 (cell i = 0, j = 0,
first vertex of the first triangle). -/
theorem vertexTriples_attains_min :
    ((-20 : ℚ), (-1 : ℚ), (-20 : ℚ)) ∈ vertexTriples 20 := by
  simp only [vertexTriples, List.mem_flatMap, List.mem_range, Nat.cast_ofNat]
  refine ⟨0, by norm_num, 0, by norm_num, ?_⟩
  norm_num [List.mem_cons, Prod.mk.injEq]

end Ground

/-- Claim C2: the curved-ground generator with half-extent S (resolution fixed
at 500) emits a buffer of exactly 500 * 500 * 6 * 3 floats; grouped in
position triples, every y coordinate is -1 and every x and z coordinate lies
in [-S, S]; at S = 20 the extreme x values -20 and 20 are attained. -/
theorem ground_generator_correct (S : ℚ) (hS : 0 ≤ S) :
    (Ground.generateVertices S).length = 500 * 500 * 6 * 3 ∧
    (Ground.generateVertices S =
      (Ground.vertexTriples S).flatMap fun t => [t.1, t.2.1, t.2.2]) ∧
    (∀ t ∈ Ground.vertexTriples S, t.2.1 = -1 ∧
      -S ≤ t.1 ∧ t.1 ≤ S ∧ -S ≤ t.2.2 ∧ t.2.2 ≤ S) ∧
    ((20 : ℚ), (-1 : ℚ), (-20 : ℚ)) ∈ Ground.vertexTriples 20 ∧
    ((-20 : ℚ), (-1 : ℚ), (-20 : ℚ)) ∈ Ground.vertexTriples 20 :=
  ⟨Ground.generateVertices_length S, Ground.generateVertices_eq_flatten S,
   Ground.vertexTriples_bounds hS, Ground.vertexTriples_attains_max,
   Ground.vertexTriples_attains_min⟩

/-- Witness for claim C2 at half-extent 20. -/
theorem ground_generator_correct_witness :
    (0 : ℚ) ≤ 20 ∧
    ((Ground.generateVertices 20).length = 500 * 500 * 6 * 3 ∧
     (Ground.generateVertices 20 =
       (Ground.vertexTriples 20).flatMap fun t => [t.1, t.2.1, t.2.2]) ∧
     (∀ t ∈ Ground.vertexTriples 20, t.2.1 = -1 ∧
       -(20 : ℚ) ≤ t.1 ∧ t.1 ≤ 20 ∧ -(20 : ℚ) ≤ t.2.2 ∧ t.2.2 ≤ 20) ∧
     ((20 : ℚ), (-1 : ℚ), (-20 : ℚ)) ∈ Ground.vertexTriples 20 ∧
     ((-20 : ℚ), (-1 : ℚ), (-20 : ℚ)) ∈ Ground.vertexTriples 20) :=
  ⟨by norm_num, ground_generator_correct 20 (by norm_num)⟩

namespace Test3

/-- Ground::generateVertices from the flat-world demo: one quad of half-extent
size at height -1, two explicit triangles. -/
def generateVertices (size : ℚ) : List ℚ :=
  [-size, -1, -size,
    size, -1, -size,
   -size, -1,  size,
    size, -1, -size,
    size, -1,  size,
   -size, -1,  size]

/-- Vertex buffer built by the two-argument constructor
Ground(size, vertexSource, fragmentSource) of the flat-world demo. -/
def groundCtor2Vertices (size : ℚ) : List ℚ :=
  generateVertices size

/-- Vertex buffer built by the one-argument constructor
Ground(float size = 20.0f): it delegates to the two-argument constructor
with the literal 20.0f, not with its size parameter. -/
def groundCtor1Vertices (size : ℚ) : List ℚ :=
  groundCtor2Vertices 20

end Test3

/-- Claim C9: in the flat-world demo the one-argument Ground constructor
ignores its size argument; for every s it builds the buffer of half-extent 20,
whose x and z coordinates all lie in {-20, 20}. -/
theorem test3_ground_ignores_size :
    (∀ s : ℚ, Test3.groundCtor1Vertices s = Test3.generateVertices 20) ∧
    (∀ s t : ℚ, Test3.groundCtor1Vertices s = Test3.groundCtor1Vertices t) ∧
    Test3.generateVertices 20 =
      [-20, -1, -20, 20, -1, -20, -20, -1, 20,
        20, -1, -20, 20, -1, 20, -20, -1, 20] :=
  ⟨fun _ => rfl, fun _ _ => rfl, by norm_num [Test3.generateVertices]⟩

/-- One graphics-API call, as issued by the Object constructor, destructor and
draw method; handle-taking calls record the handle they were given. -/
inductive GLCall where
  | genVertexArrays (handle : ℕ)
  | genBuffers (handle : ℕ)
  | bindVertexArray (handle : ℕ)
  | bindBuffer (handle : ℕ)
  | bufferData (floatCount : ℕ)
  | vertexAttribPointer
  | enableVertexAttribArray
  | deleteVertexArrays (handle : ℕ)
  | deleteBuffers (handle : ℕ)
  | drawArrays (vertexCount : ℕ)
deriving DecidableEq, Repr

/-- The CPU-side state of an Object: its two GPU handles and the cached
vertex count (size / 3, each vertex being 3 floats). -/
structure Object where
  VBO : ℕ
  VAO : ℕ
  vertexCount : ℕ
deriving DecidableEq, Repr

/-- The Object built by Object(float* vertices, int size), given the two
fresh handles the graphics API returns for the vertex array and the buffer. -/
def Object.ctorObj (vao vbo : ℕ) (size : ℕ) : Object :=
  ⟨vbo, vao, size / 3⟩

/-- The graphics-API call trace of Object(float* vertices, int size). -/
def Object.ctorCalls (vao vbo : ℕ) (size : ℕ) : List GLCall :=
  [GLCall.genVertexArrays vao, GLCall.genBuffers vbo,
   GLCall.bindVertexArray vao, GLCall.bindBuffer vbo,
   GLCall.bufferData size, GLCall.vertexAttribPointer,
   GLCall.enableVertexAttribArray,
   GLCall.bindBuffer 0, GLCall.bindVertexArray 0]

/-- The graphics-API call trace of the destructor ~Object(): it always deletes
the vertex array and then the buffer. -/
def Object.dtorCalls (o : Object) : List GLCall :=
  [GLCall.deleteVertexArrays o.VAO, GLCall.deleteBuffers o.VBO]

/-- True exactly on vertex-array create calls. -/
def GLCall.isVertexArrayCreate : GLCall → Bool
  | .genVertexArrays _ => true
  | _ => false

/-- True exactly on buffer create calls. -/
def GLCall.isBufferCreate : GLCall → Bool
  | .genBuffers _ => true
  | _ => false

/-- True exactly on vertex-array delete calls. -/
def GLCall.isVertexArrayDelete : GLCall → Bool
  | .deleteVertexArrays _ => true
  | _ => false

/-- True exactly on buffer delete calls. -/
def GLCall.isBufferDelete : GLCall → Bool
  | .deleteBuffers _ => true
  | _ => false

/-- Claim C7: constructing an Object and then destroying it pairs every create
with a matching destroy: the constructor trace holds exactly one vertex-array
create and one buffer create, the destructor trace exactly one delete of each
kind, the deletes target exactly the created handles, and over the combined
trace create and delete counts agree. -/
theorem object_no_handle_leak (vao vbo size : ℕ) :
    (Object.ctorCalls vao vbo size).countP GLCall.isVertexArrayCreate = 1 ∧
    (Object.ctorCalls vao vbo size).countP GLCall.isBufferCreate = 1 ∧
    (Object.dtorCalls (Object.ctorObj vao vbo size)).countP
      GLCall.isVertexArrayDelete = 1 ∧
    (Object.dtorCalls (Object.ctorObj vao vbo size)).countP
      GLCall.isBufferDelete = 1 ∧
    Object.dtorCalls (Object.ctorObj vao vbo size) =
      [GLCall.deleteVertexArrays vao, GLCall.deleteBuffers vbo] ∧
    ((Object.ctorCalls vao vbo size ++
        Object.dtorCalls (Object.ctorObj vao vbo size)).countP
      GLCall.isVertexArrayCreate =
     (Object.ctorCalls vao vbo size ++
        Object.dtorCalls (Object.ctorObj vao vbo size)).countP
      GLCall.isVertexArrayDelete) ∧
    ((Object.ctorCalls vao vbo size ++
        Object.dtorCalls (Object.ctorObj vao vbo size)).countP
      GLCall.isBufferCreate =
     (Object.ctorCalls vao vbo size ++
        Object.dtorCalls (Object.ctorObj vao vbo size)).countP
      GLCall.isBufferDelete) :=
  ⟨rfl, rfl, rfl, rfl, rfl, rfl, rfl⟩

/-- Modelled from C++ semantics of the source: class Object declares a
destructor but no copy constructor and no copy assignment and does not delete
them, so the implicitly-declared copy constructor is available and performs a
memberwise copy of VBO, VAO and vertexCount. -/
def Object.implicitCopy (o : Object) : Object :=
  ⟨o.VBO, o.VAO, o.vertexCount⟩

/-- Counterexample to claim C8: an Object value can be duplicated through the
public interface (the implicit copy constructor), the copy holds the very same
handles, and destroying the original and the copy issues the vertex-array and
buffer delete calls twice each on those handles, a reachable double free. -/
theorem object_copyable_cex :
    Object.implicitCopy (Object.ctorObj 1 2 108) = Object.ctorObj 1 2 108 ∧
    (Object.dtorCalls (Object.ctorObj 1 2 108) ++
      Object.dtorCalls (Object.implicitCopy (Object.ctorObj 1 2 108))).count
      (GLCall.deleteVertexArrays 1) = 2 ∧
    (Object.dtorCalls (Object.ctorObj 1 2 108) ++
      Object.dtorCalls (Object.implicitCopy (Object.ctorObj 1 2 108))).count
      (GLCall.deleteBuffers 2) = 2 := by
  refine ⟨rfl, ?_, ?_⟩ <;> decide

/-- Claim C8 amended: Object is implicitly copyable; the copy is field-for-field
identical and shares both GPU handles, so destroying the original and the copy
issues the same vertex-array delete and the same buffer delete twice. -/
theorem object_copy_shares_handles (o : Object) :
    Object.implicitCopy o = o ∧
    Object.dtorCalls (Object.implicitCopy o) = Object.dtorCalls o ∧
    Object.dtorCalls o ++ Object.dtorCalls (Object.implicitCopy o) =
      [GLCall.deleteVertexArrays o.VAO, GLCall.deleteBuffers o.VBO,
       GLCall.deleteVertexArrays o.VAO, GLCall.deleteBuffers o.VBO] :=
  ⟨rfl, rfl, rfl⟩

noncomputable section

/-- A 3-component real vector, modelling glm::vec3 in the camera, where the
trigonometric front-vector computation needs real arithmetic. -/
structure Vec3 where
  x : ℝ
  y : ℝ
  z : ℝ

/-- Squared Euclidean length. -/
def Vec3.normSq (v : Vec3) : ℝ := v.x ^ 2 + v.y ^ 2 + v.z ^ 2

/-- Euclidean length (glm::length). -/
def Vec3.norm (v : Vec3) : ℝ := Real.sqrt v.normSq

/-- glm::normalize: each component divided by the length. -/
def Vec3.normalize (v : Vec3) : Vec3 := ⟨v.x / v.norm, v.y / v.norm, v.z / v.norm⟩

/-- glm::radians: degrees to radians. -/
def radians (d : ℝ) : ℝ := d * (Real.pi / 180)

/-- The Camera state: position, front and up vectors, movement speed, yaw and
pitch in degrees, last cursor position and the first-sample flag. -/
structure Camera where
  cameraPos : Vec3
  cameraFront : Vec3
  cameraUp : Vec3
  speed : ℝ
  yaw : ℝ
  pitch : ℝ
  lastX : ℝ
  lastY : ℝ
  firstMouse : Bool

/-- The front vector Camera::updateCameraVectors derives from yaw and pitch:
the normalized spherical-to-Cartesian direction. -/
def cameraFrontFor (yaw pitch : ℝ) : Vec3 :=
  Vec3.normalize
    ⟨Real.cos (radians yaw) * Real.cos (radians pitch),
     Real.sin (radians pitch),
     Real.sin (radians yaw) * Real.cos (radians pitch)⟩

/-- Camera::updateCameraVectors: recompute cameraFront from yaw and pitch. -/
def Camera.updateCameraVectors (c : Camera) : Camera :=
  { c with cameraFront := cameraFrontFor c.yaw c.pitch }

/-- Camera::Camera(): the default-constructed camera. The window is
1600 x 1200, so the last cursor position starts at its center. -/
def Camera.init : Camera where
  cameraPos := ⟨0, 0, 4⟩
  cameraFront := ⟨0, -0.3, -1⟩
  cameraUp := ⟨0, 1, 0⟩
  speed := 2.5
  yaw := -90
  pitch := 0
  lastX := 1600 / 2
  lastY := 1200 / 2
  firstMouse := true

/-- Camera::ProcessMouseMovement: scale the offsets by the sensitivity 0.1,
accumulate into yaw and pitch, clamp pitch to [-89, 89] when constrainPitch
(the default) is set, then recompute the front vector. -/
def Camera.ProcessMouseMovement (c : Camera) (xoffset yoffset : ℝ)
    (constrainPitch : Bool := true) : Camera :=
  let sensitivity : ℝ := 0.1
  let xoffset := xoffset * sensitivity
  let yoffset := yoffset * sensitivity
  let yaw := c.yaw + xoffset
  let pitch := c.pitch + yoffset
  let pitch :=
    if constrainPitch then
      let p1 := if pitch > 89 then (89 : ℝ) else pitch
      if p1 < -89 then (-89 : ℝ) else p1
    else pitch
  Camera.updateCameraVectors { c with yaw := yaw, pitch := pitch }

/-- A finite sequence of mouse-movement calls with the default
constrainPitch argument. -/
def Camera.applyMouseMoves (c : Camera) (moves : List (ℝ × ℝ)) : Camera :=
  moves.foldl (fun cam m => cam.ProcessMouseMovement m.1 m.2) c

/-- A finite sequence of mouse-movement calls with constrainPitch false. -/
def Camera.applyMouseMovesUnconstrained (c : Camera) (moves : List (ℝ × ℝ)) :
    Camera :=
  moves.foldl (fun cam m => cam.ProcessMouseMovement m.1 m.2 false) c

/-- The derived front direction is already a unit vector, so normalizing is
the identity on it. -/
theorem cameraFrontFor_eq (y p : ℝ) :
    cameraFrontFor y p =
      ⟨Real.cos (radians y) * Real.cos (radians p),
       Real.sin (radians p),
       Real.sin (radians y) * Real.cos (radians p)⟩ := by
  have hsq : (⟨Real.cos (radians y) * Real.cos (radians p),
       Real.sin (radians p),
       Real.sin (radians y) * Real.cos (radians p)⟩ : Vec3).normSq = 1 := by
    simp only [Vec3.normSq]
    have h1 := Real.sin_sq_add_cos_sq (radians y)
    have h2 := Real.sin_sq_add_cos_sq (radians p)
    nlinarith [h1, h2]
  have hn : (⟨Real.cos (radians y) * Real.cos (radians p),
       Real.sin (radians p),
       Real.sin (radians y) * Real.cos (radians p)⟩ : Vec3).norm = 1 := by
    rw [Vec3.norm, hsq, Real.sqrt_one]
  simp only [cameraFrontFor, Vec3.normalize, hn, div_one]

/-- The derived front direction has length exactly 1. -/
theorem cameraFrontFor_norm (y p : ℝ) : (cameraFrontFor y p).norm = 1 := by
  rw [cameraFrontFor_eq]
  simp only [Vec3.norm]
  have h1 := Real.sin_sq_add_cos_sq (radians y)
  have h2 := Real.sin_sq_add_cos_sq (radians p)
  have hsq : (⟨Real.cos (radians y) * Real.cos (radians p),
       Real.sin (radians p),
       Real.sin (radians y) * Real.cos (radians p)⟩ : Vec3).normSq = 1 := by
    simp only [Vec3.normSq]
    nlinarith [h1, h2]
  rw [hsq, Real.sqrt_one]

/-- After a mouse movement the stored front vector is the one derived from
the stored yaw and pitch. -/
theorem PMM_front (c : Camera) (dx dy : ℝ) (cp : Bool) :
    (c.ProcessMouseMovement dx dy cp).cameraFront =
      cameraFrontFor (c.ProcessMouseMovement dx dy cp).yaw
        (c.ProcessMouseMovement dx dy cp).pitch := rfl

/-- A mouse movement adds dx * 0.1 to the yaw. -/
theorem PMM_yaw (c : Camera) (dx dy : ℝ) (cp : Bool) :
    (c.ProcessMouseMovement dx dy cp).yaw = c.yaw + dx * 0.1 := rfl

/-- Without the pitch constraint, a mouse movement adds dy * 0.1 to the
pitch with no clamping. -/
theorem PMM_pitch_false (c : Camera) (dx dy : ℝ) :
    (c.ProcessMouseMovement dx dy false).pitch = c.pitch + dy * 0.1 := rfl

/-- A single constrained mouse movement leaves the pitch within [-89, 89]. -/
theorem PMM_pitch_bounds (c : Camera) (dx dy : ℝ) :
    -89 ≤ (c.ProcessMouseMovement dx dy).pitch ∧
    (c.ProcessMouseMovement dx dy).pitch ≤ 89 := by
  have h : (c.ProcessMouseMovement dx dy).pitch =
      (if (if c.pitch + dy * 0.1 > 89 then (89 : ℝ) else c.pitch + dy * 0.1) < -89
        then (-89 : ℝ)
        else if c.pitch + dy * 0.1 > 89 then (89 : ℝ) else c.pitch + dy * 0.1) := rfl
  rw [h]
  constructor <;> split_ifs <;> linarith

/-- Any sequence of constrained mouse movements keeps an in-bounds pitch
in bounds. -/
theorem applyMouseMoves_pitch_bounds (moves : List (ℝ × ℝ)) :
    ∀ c : Camera, -89 ≤ c.pitch → c.pitch ≤ 89 →
      -89 ≤ (c.applyMouseMoves moves).pitch ∧
      (c.applyMouseMoves moves).pitch ≤ 89 := by
  induction moves with
  | nil => intro c h1 h2; exact ⟨h1, h2⟩
  | cons m rest ih =>
      intro c h1 h2
      have h := PMM_pitch_bounds c m.1 m.2
      simp only [Camera.applyMouseMoves, List.foldl_cons]
      exact ih _ h.1 h.2

/-- Claim C3: starting from the default-constructed camera, after any finite
sequence of ProcessMouseMovement calls with the default constrainPitch
argument, however large the offsets, the pitch lies within [-89, 89]. -/
theorem camera_pitch_always_clamped (moves : List (ℝ × ℝ)) :
    -89 ≤ (Camera.init.applyMouseMoves moves).pitch ∧
    (Camera.init.applyMouseMoves moves).pitch ≤ 89 :=
  applyMouseMoves_pitch_bounds moves Camera.init
    (by norm_num [Camera.init]) (by norm_num [Camera.init])

/-- Claim C5: after any single ProcessMouseMovement call, from any camera
state and for any offsets, the forward vector has length 1 exactly, hence
within tolerance 1e-5. -/
theorem camera_front_unit_length (c : Camera) (dx dy : ℝ) (cp : Bool) :
    ((c.ProcessMouseMovement dx dy cp).cameraFront).norm = 1 ∧
    |((c.ProcessMouseMovement dx dy cp).cameraFront).norm - 1| ≤ 1e-5 := by
  rw [PMM_front, cameraFrontFor_norm]
  norm_num

/-- Counterexample to claim C4: immediately after construction the forward
vector is the literal (0, -0.3, -1), whose length is not 1, and it differs
from the vector derived from the initial yaw and pitch. -/
theorem camera_init_front_cex :
    Camera.init.cameraFront.norm ≠ 1 ∧
    Camera.init.cameraFront ≠ cameraFrontFor Camera.init.yaw Camera.init.pitch := by
  constructor
  · intro h
    have hsq : Camera.init.cameraFront.normSq = 1.09 := by
      norm_num [Camera.init, Vec3.normSq]
    rw [Vec3.norm, hsq] at h
    have h2 := Real.sqrt_eq_one.mp h
    norm_num at h2
  · intro h
    have hy := congrArg Vec3.y h
    rw [cameraFrontFor_eq] at hy
    norm_num [Camera.init, radians, Real.sin_zero] at hy

/-- Claim C4 amended: the constructor stores the literal front (0, -0.3, -1),
which is not derived from yaw and pitch and is not unit length; from the
first ProcessMouseMovement call on, the forward vector is always the vector
derived from the current yaw and pitch and has unit length. -/
theorem camera_front_unit_after_update :
    Camera.init.cameraFront = ⟨0, -0.3, -1⟩ ∧
    ∀ (c : Camera) (dx dy : ℝ) (cp : Bool),
      (c.ProcessMouseMovement dx dy cp).cameraFront =
        cameraFrontFor (c.ProcessMouseMovement dx dy cp).yaw
          (c.ProcessMouseMovement dx dy cp).pitch ∧
      ((c.ProcessMouseMovement dx dy cp).cameraFront).norm = 1 :=
  ⟨rfl, fun c dx dy cp =>
    ⟨PMM_front c dx dy cp, by rw [PMM_front, cameraFrontFor_norm]⟩⟩

/-- Claim C6: from the default camera (yaw -90, pitch 0), a single call
ProcessMouseMovement(100, 0) raises yaw by exactly 10 degrees to -80, leaves
pitch at 0 within the clamp bounds, and recomputes the forward vector from
the new yaw and pitch. -/
theorem camera_mouse_scenario :
    (Camera.init.ProcessMouseMovement 100 0).yaw = -80 ∧
    (Camera.init.ProcessMouseMovement 100 0).yaw = Camera.init.yaw + 10 ∧
    (Camera.init.ProcessMouseMovement 100 0).pitch = 0 ∧
    (Camera.init.ProcessMouseMovement 100 0).cameraFront =
      cameraFrontFor (-80) 0 ∧
    -89 ≤ (Camera.init.ProcessMouseMovement 100 0).pitch ∧
    (Camera.init.ProcessMouseMovement 100 0).pitch ≤ 89 := by
  have hyaw : (Camera.init.ProcessMouseMovement 100 0).yaw = -80 := by
    rw [PMM_yaw]
    norm_num [Camera.init]
  have hpitch : (Camera.init.ProcessMouseMovement 100 0).pitch = 0 := by
    show (if (if Camera.init.pitch + 0 * 0.1 > 89 then (89 : ℝ)
        else Camera.init.pitch + 0 * 0.1) < -89 then (-89 : ℝ)
        else if Camera.init.pitch + 0 * 0.1 > 89 then (89 : ℝ)
        else Camera.init.pitch + 0 * 0.1) = 0
    norm_num [Camera.init]
  refine ⟨hyaw, by rw [hyaw]; norm_num [Camera.init], hpitch, ?_,
    by rw [hpitch]; norm_num, by rw [hpitch]; norm_num⟩
  rw [PMM_front, hyaw, hpitch]

/-- Claim C10: with constrainPitch false no clamp is applied - the pitch
delta always accumulates verbatim - and some sequence of such calls drives
the pitch beyond 89 degrees. -/
theorem camera_unconstrained_pitch_unbounded :
    (∀ (c : Camera) (dx dy : ℝ),
      (c.ProcessMouseMovement dx dy false).pitch = c.pitch + dy * 0.1) ∧
    ∃ moves : List (ℝ × ℝ),
      89 < (Camera.init.applyMouseMovesUnconstrained moves).pitch := by
  refine ⟨fun c dx dy => rfl, ⟨[(0, 1000)], ?_⟩⟩
  show (89 : ℝ) < (Camera.init.ProcessMouseMovement 0 1000 false).pitch
  rw [PMM_pitch_false]
  norm_num [Camera.init]

end
